import Mathlib

/-!
Shallow embedding of `dev/local/callback/tracker.py` from the fastai_dev
repository: the tracker/callback subsystem (TerminateOnNaNCallback,
TrackerCallback, EarlyStoppingCallback, SaveModelCallback, ReduceLROnPlateau).

Python floats appearing as monitored metric values are modelled exactly by
the type `EV` (extended value): a rational number, positive or negative
infinity, or NaN, with the IEEE-style comparison and subtraction semantics
the code relies on (`np.less`, `np.greater`, `torch.isinf`, `torch.isnan`,
float subtraction).  Exceptions (`CancelFitException`, the `assert` in
`begin_fit`) are modelled by `Option`/flag results, model persistence by a
list of file names.
-/

namespace FastaiTracker

/-- Extended scalar value: a float is a finite rational, ±infinity, or NaN. -/
inductive EV where
  | ninf : EV
  | fin (q : ℚ) : EV
  | pinf : EV
  | nan : EV
  deriving DecidableEq, Repr, Inhabited

/-- IEEE `<` on extended values (`np.less`): any comparison with NaN is false. -/
def EV.lt : EV → EV → Bool
  | .nan, _ => false
  | _, .nan => false
  | .ninf, .ninf => false
  | .ninf, _ => true
  | .fin _, .ninf => false
  | .fin a, .fin b => decide (a < b)
  | .fin _, .pinf => true
  | .pinf, _ => false

/-- IEEE `>` on extended values (`np.greater`). -/
def EV.gt (a b : EV) : Bool := EV.lt b a

/-- IEEE subtraction on extended values (`val - min_delta` in `after_epoch`). -/
def EV.sub : EV → EV → EV
  | .nan, _ => .nan
  | _, .nan => .nan
  | .fin a, .fin b => .fin (a - b)
  | .pinf, .pinf => .nan
  | .pinf, _ => .pinf
  | .ninf, .ninf => .nan
  | .ninf, _ => .ninf
  | .fin _, .pinf => .ninf
  | .fin _, .ninf => .pinf

/-- `torch.isinf` on a scalar. -/
def EV.isinf : EV → Bool
  | .pinf => true
  | .ninf => true
  | _ => false

/-- `torch.isnan` on a scalar. -/
def EV.isnan : EV → Bool
  | .nan => true
  | _ => false

/-- A comparator value as passed for `comp`: the distinguished objects
`np.less` and `np.greater`, or any other caller-supplied callable.  The code
tests `comp == np.less`, which for these objects is object identity, so the
custom case always compares unequal to `np.less`. -/
inductive Comp where
  | npLess : Comp
  | npGreater : Comp
  | custom (f : EV → EV → Bool) : Comp

/-- The Python test `comp == np.less`. -/
def Comp.eqNpLess : Comp → Bool
  | .npLess => true
  | _ => false

/-- Calling the comparator. -/
def Comp.apply : Comp → EV → EV → Bool
  | .npLess => EV.lt
  | .npGreater => EV.gt
  | .custom f => f

/-- Python `pat in s` (case-sensitive substring test) on lists of characters. -/
def hasSubList (pat : List Char) : List Char → Bool
  | [] => decide (pat = [])
  | c :: cs => decide (pat = List.take pat.length (c :: cs)) || hasSubList pat cs

/-- Python `pat in s` on strings. -/
def strContains (s pat : String) : Bool := hasSubList pat.toList s.toList

/-- Embeds `TerminateOnNaNCallback.after_batch`: returns `true` iff the batch loss
is infinite or NaN, i.e. iff `CancelFitException` is raised. -/
def TerminateOnNaNCallback.afterBatch (loss : EV) : Bool :=
  loss.isinf || loss.isnan

/-- Driver for `TerminateOnNaNCallback` over a list of batch losses: returns
the number of batches whose `after_batch` hook ran and whether the fit was
cancelled; once cancelled, no later batch hook executes. -/
def runNaN : List EV → Nat × Bool
  | [] => (0, false)
  | l :: ls =>
    if TerminateOnNaNCallback.afterBatch l then (1, true)
    else
      let r := runNaN ls
      (r.1 + 1, r.2)

/-- The configuration stored by `TrackerCallback.__init__`. -/
structure TrackerCallback where
  monitor : String
  comp : Comp
  min_delta : ℚ

/-- Embeds `TrackerCallback.__init__(monitor, comp, min_delta)`:
`if comp is None: comp = np.less if 'loss' in monitor else np.greater`;
`if comp == np.less: min_delta *= -1`. -/
def TrackerCallback.make (monitor : String) (comp? : Option Comp) (min_delta : ℚ) :
    TrackerCallback :=
  let comp := match comp? with
    | none => if strContains monitor "loss" then Comp.npLess else Comp.npGreater
    | some c => c
  let md := if comp.eqNpLess then min_delta * (-1) else min_delta
  ⟨monitor, comp, md⟩

/-- The mutable state of a `TrackerCallback` during a fit. -/
structure TrackerState where
  best : EV
  new_best : Bool
  deriving DecidableEq, Repr

/-- Embeds `TrackerCallback.begin_fit`: set `best` to `+inf` if `comp == np.less`
else `-inf`; `assert monitor in recorder.metric_names[1:]` (failure modelled
as `none`); compute `idx` as the position of `monitor` in
`metric_names[1:]`. -/
def TrackerCallback.beginFit (t : TrackerCallback) (metricNames : List String) :
    Option (TrackerState × Nat) :=
  let best := if t.comp.eqNpLess then EV.pinf else EV.ninf
  if t.monitor ∈ metricNames.drop 1 then
    some (⟨best, false⟩, (metricNames.drop 1).indexOf t.monitor)
  else none

/-- Embeds `TrackerCallback.after_epoch` with the monitored value `val` already
extracted from the recorder row:
`if comp(val - min_delta, best): best, new_best = val, True else: new_best = False`. -/
def TrackerCallback.afterEpoch (t : TrackerCallback) (s : TrackerState) (val : EV) :
    TrackerState :=
  if t.comp.apply (val.sub (EV.fin t.min_delta)) s.best then ⟨val, true⟩
  else ⟨s.best, false⟩

/-- Configuration of `EarlyStoppingCallback.__init__`: a `TrackerCallback` plus `patience`. -/
structure EarlyStoppingCallback where
  tc : TrackerCallback
  patience : Nat

/-- Embeds `EarlyStoppingCallback.__init__(monitor, comp, min_delta, patience)`. -/
def EarlyStoppingCallback.make (monitor : String) (comp? : Option Comp)
    (min_delta : ℚ) (patience : Nat) : EarlyStoppingCallback :=
  ⟨TrackerCallback.make monitor comp? min_delta, patience⟩

/-- Embeds `EarlyStoppingCallback.after_epoch`: run the tracker update; if
`new_best`, reset `wait` to 0; else increment `wait` and, when
`wait >= patience`, raise `CancelFitException` after printing a message
naming epoch `self.epoch - self.wait`.  The result is the updated tracker
state, the updated `wait`, and `some msgEpoch` iff the exception is
raised. -/
def EarlyStoppingCallback.afterEpoch (c : EarlyStoppingCallback) (s : TrackerState)
    (wait : Nat) (epoch : Nat) (val : EV) : TrackerState × Nat × Option Int :=
  let s' := c.tc.afterEpoch s val
  if s'.new_best then (s', 0, none)
  else
    let w := wait + 1
    if c.patience ≤ w then (s', w, some ((epoch : Int) - (w : Int)))
    else (s', w, none)

/-- Epoch loop for `EarlyStoppingCallback`: feed one monitored value per
epoch; return the number of epochs whose `after_epoch` hook ran and the
cancellation message epoch if the fit was aborted.  After a
`CancelFitException` no further epoch hook runs. -/
def runES (c : EarlyStoppingCallback) : List EV → Nat → TrackerState → Nat →
    Nat × Option Int
  | [], _, _, _ => (0, none)
  | v :: vs, epoch, s, wait =>
    match c.afterEpoch s wait epoch v with
    | (_, _, some m) => (1, some m)
    | (s', w, none) =>
      let r := runES c vs (epoch + 1) s' w
      (r.1 + 1, r.2)

/-- A whole fit of `EarlyStoppingCallback`: `begin_fit` (`wait = 0`, tracker
init, monitor-name assertion), then the epoch loop; `none` models the
assertion failing at fit start, before any epoch hook runs. -/
def EarlyStoppingCallback.fit (c : EarlyStoppingCallback) (metricNames : List String)
    (values : List EV) : Option (Nat × Option Int) :=
  match c.tc.beginFit metricNames with
  | none => none
  | some (s, _) => some (runES c values 0 s 0)

/-- Configuration of `SaveModelCallback.__init__`: a `TrackerCallback` plus `fname` and
`every_epoch`. -/
structure SaveModelCallback where
  tc : TrackerCallback
  fname : String
  every_epoch : Bool

/-- Embeds `SaveModelCallback.__init__(monitor, comp, min_delta, fname, every_epoch)`. -/
def SaveModelCallback.make (monitor : String) (comp? : Option Comp) (min_delta : ℚ)
    (fname : String) (every_epoch : Bool) : SaveModelCallback :=
  ⟨TrackerCallback.make monitor comp? min_delta, fname, every_epoch⟩

/-- Embeds `SaveModelCallback.after_epoch`: in `every_epoch` mode save under
`f'{fname}_{epoch}'` without touching the tracker state; otherwise run the
tracker update and save under the bare `fname` iff `new_best`.  The second
component is the name passed to `learn.save`, if any. -/
def SaveModelCallback.afterEpoch (c : SaveModelCallback) (s : TrackerState)
    (epoch : Nat) (val : EV) : TrackerState × Option String :=
  if c.every_epoch then (s, some (c.fname ++ "_" ++ toString epoch))
  else
    let s' := c.tc.afterEpoch s val
    (s', if s'.new_best then some c.fname else none)

/-- Embeds `SaveModelCallback.on_train_end`: if not `every_epoch` and the file
`{fname}.pth` exists, call `learn.load(fname)`.  `fs` is the set of files on
disk; the result is the name loaded, if any. -/
def SaveModelCallback.onTrainEnd (c : SaveModelCallback) (fs : List String) :
    Option String :=
  if !c.every_epoch && fs.contains (c.fname ++ ".pth") then some c.fname
  else none

/-- Epoch loop for `SaveModelCallback`: returns the final tracker state and
the list of `(epoch, name)` save events; `learn.save n` creates file
`n ++ ".pth"`. -/
def runSave (c : SaveModelCallback) : List EV → Nat → TrackerState →
    TrackerState × List (Nat × String)
  | [], _, s => (s, [])
  | v :: vs, epoch, s =>
    let (s', save?) := c.afterEpoch s epoch v
    let r := runSave c vs (epoch + 1) s'
    match save? with
    | some n => (r.1, (epoch, n) :: r.2)
    | none => (r.1, r.2)

/-- A whole fit of `SaveModelCallback`: `begin_fit`, the epoch loop starting
from filesystem `fs0`, then `on_train_end` on the resulting filesystem.
Returns the save events and the name reloaded at fit end, if any. -/
def SaveModelCallback.fit (c : SaveModelCallback) (metricNames : List String)
    (values : List EV) (fs0 : List String) :
    Option (List (Nat × String) × Option String) :=
  match c.tc.beginFit metricNames with
  | none => none
  | some (s, _) =>
    let r := runSave c values 0 s
    let fs := fs0 ++ r.2.map (fun e => e.2 ++ ".pth")
    some (r.2, c.onTrainEnd fs)

/-- Configuration of `ReduceLROnPlateau.__init__`: a `TrackerCallback` plus `patience` and
`factor`. -/
structure ReduceLROnPlateau where
  tc : TrackerCallback
  patience : Nat
  factor : ℚ

/-- Embeds `ReduceLROnPlateau.__init__(monitor, comp, min_delta, patience, factor)`. -/
def ReduceLROnPlateau.make (monitor : String) (comp? : Option Comp) (min_delta : ℚ)
    (patience : Nat) (factor : ℚ) : ReduceLROnPlateau :=
  ⟨TrackerCallback.make monitor comp? min_delta, patience, factor⟩

/-- Embeds `ReduceLROnPlateau.after_epoch`: run the tracker update; if `new_best`,
reset `wait`; else increment `wait` and, when `wait >= patience`, divide the
`lr` of every hyper-parameter group by `factor` and reset `wait` to 0.  No
exception is ever raised.  `hypers` is the list of `lr` values of
`self.opt.hypers`. -/
def ReduceLROnPlateau.afterEpoch (c : ReduceLROnPlateau) (s : TrackerState)
    (wait : Nat) (hypers : List ℚ) (val : EV) : TrackerState × Nat × List ℚ :=
  let s' := c.tc.afterEpoch s val
  if s'.new_best then (s', 0, hypers)
  else
    let w := wait + 1
    if c.patience ≤ w then (s', 0, hypers.map (fun lr => lr / c.factor))
    else (s', w, hypers)

/-- Epoch loop for `ReduceLROnPlateau`: every epoch's hook runs (nothing
aborts the fit); returns the number of epochs run, the final tracker state,
wait counter and hyper-parameter learning rates. -/
def runPlateau (c : ReduceLROnPlateau) : List EV → Nat → TrackerState → Nat →
    List ℚ → Nat × TrackerState × Nat × List ℚ
  | [], _, s, wait, hypers => (0, s, wait, hypers)
  | v :: vs, epoch, s, wait, hypers =>
    let st := c.afterEpoch s wait hypers v
    let r := runPlateau c vs (epoch + 1) st.1 st.2.1 st.2.2
    (r.1 + 1, r.2)

end FastaiTracker

open FastaiTracker

/-- Helper: the executable substring test `hasSubList` holds exactly when the
pattern occurs contiguously in the list. -/
theorem hasSubList_iff (pat l : List Char) :
    hasSubList pat l = true ↔ ∃ pre post, l = pre ++ pat ++ post := by
  induction l with
  | nil =>
    simp only [hasSubList, decide_eq_true_eq]
    constructor
    · rintro rfl; exact ⟨[], [], rfl⟩
    · rintro ⟨pre, post, h⟩
      rcases List.append_eq_nil.mp h.symm with ⟨h1, h2⟩
      rcases List.append_eq_nil.mp h1 with ⟨_, hpat⟩
      exact hpat
  | cons c cs ih =>
    simp only [hasSubList, Bool.or_eq_true, decide_eq_true_eq, ih]
    constructor
    · rintro (hA | ⟨pre, post, rfl⟩)
      · exact ⟨[], (c :: cs).drop pat.length, by
          conv_lhs => rw [← List.take_append_drop pat.length (c :: cs)]
          rw [← hA]; simp⟩
      · exact ⟨c :: pre, post, by simp⟩
    · rintro ⟨pre, post, h⟩
      cases pre with
      | nil =>
        left
        simp only [List.nil_append] at h
        rw [h, List.take_left]
      | cons p ps =>
        right
        simp only [List.cons_append, List.cons.injEq] at h
        exact ⟨ps, post, h.2⟩

/-- C1: on every epoch update of `TrackerCallback`, if the comparison declares
the monitored value an improvement then `best` is set to that value and
`new_best` to `true`; otherwise `new_best` is `false` and `best` is unchanged;
and at fit start `best` is initialised to +infinity when the comparator is
`np.less` and -infinity otherwise. -/
theorem C1_tracker_update_and_init :
    (∀ (t : TrackerCallback) (s : TrackerState) (val : EV),
      (t.comp.apply (val.sub (EV.fin t.min_delta)) s.best = true →
        t.afterEpoch s val = ⟨val, true⟩) ∧
      (t.comp.apply (val.sub (EV.fin t.min_delta)) s.best = false →
        t.afterEpoch s val = ⟨s.best, false⟩)) ∧
    (∀ (t : TrackerCallback) (names : List String) (st : TrackerState) (idx : Nat),
      t.beginFit names = some (st, idx) →
        st.best = (if t.comp.eqNpLess = true then EV.pinf else EV.ninf)) := by
  constructor
  · intro t s val
    constructor
    · intro h; simp [TrackerCallback.afterEpoch, h]
    · intro h; simp [TrackerCallback.afterEpoch, h]
  · intro t names st idx h
    unfold TrackerCallback.beginFit at h
    by_cases hm : t.monitor ∈ names.drop 1
    · simp only [if_pos hm, Option.some.injEq, Prod.mk.injEq] at h
      obtain ⟨h1, h2⟩ := h
      subst h1
      rfl
    · simp only [if_neg hm] at h
      exact Option.noConfusion h

/-- Witness for C1 at concrete inputs. -/
theorem C1_witness :
    (TrackerCallback.make "valid_loss" none 0).afterEpoch ⟨EV.pinf, false⟩ (EV.fin 1) =
      ⟨EV.fin 1, true⟩ ∧
    (⟨EV.pinf, false⟩ : TrackerState).best =
      (if (TrackerCallback.make "valid_loss" none 0).comp.eqNpLess = true
        then EV.pinf else EV.ninf) := by
  constructor
  · exact (C1_tracker_update_and_init.1 _ _ _).1 (by
      norm_num [TrackerCallback.make, strContains, hasSubList, Comp.eqNpLess,
        Comp.apply, EV.sub, EV.lt])
  · exact C1_tracker_update_and_init.2 (TrackerCallback.make "valid_loss" none 0)
      ["train_loss", "valid_loss"] ⟨EV.pinf, false⟩ 0 rfl

/-- C2: the stored tolerance is the negation of the given `min_delta` when the
comparator is `np.less` and the given `min_delta` unchanged otherwise, and an
improvement is declared exactly when `comp(val - stored_tolerance, best)`
holds, one comparison formula for both directions. -/
theorem C2_tolerance_normalization :
    (∀ (m : String) (d : ℚ),
      (TrackerCallback.make m (some Comp.npLess) d).min_delta = -d ∧
      (TrackerCallback.make m (some Comp.npGreater) d).min_delta = d) ∧
    (∀ (m : String) (d : ℚ),
      (TrackerCallback.make m none d).min_delta =
        (if strContains m "loss" then -d else d)) ∧
    (∀ (t : TrackerCallback) (s : TrackerState) (val : EV),
      (t.afterEpoch s val).new_best =
        t.comp.apply (val.sub (EV.fin t.min_delta)) s.best) := by
  refine ⟨fun m d => ⟨?_, ?_⟩, fun m d => ?_, fun t s val => ?_⟩
  · simp [TrackerCallback.make, Comp.eqNpLess]
  · simp [TrackerCallback.make, Comp.eqNpLess]
  · by_cases hc : strContains m "loss" <;>
      simp [TrackerCallback.make, Comp.eqNpLess, hc]
  · unfold TrackerCallback.afterEpoch
    split
    · next h => simp [h]
    · next h =>
      simp only [Bool.not_eq_true] at h
      simp [h]

/-- C9: when no explicit comparator is supplied, `TrackerCallback` selects
`np.less` iff the string "loss" occurs as a case-sensitive substring of the
monitor name, and `np.greater` otherwise. -/
theorem C9_default_comparator :
    (∀ (m : String) (d : ℚ),
      (TrackerCallback.make m none d).comp =
        (if strContains m "loss" then Comp.npLess else Comp.npGreater)) ∧
    (∀ (s pat : String), strContains s pat = true ↔
      ∃ pre post, s.toList = pre ++ pat.toList ++ post) ∧
    (TrackerCallback.make "valid_loss" none 0).comp = Comp.npLess ∧
    (TrackerCallback.make "train_loss" none 0).comp = Comp.npLess ∧
    (TrackerCallback.make "accuracy" none 0).comp = Comp.npGreater ∧
    (TrackerCallback.make "LOSS" none 0).comp = Comp.npGreater := by
  refine ⟨fun m d => ?_, fun s pat => ?_, rfl, rfl, rfl, rfl⟩
  · by_cases hc : strContains m "loss" <;> simp [TrackerCallback.make, hc]
  · unfold strContains
    exact hasSubList_iff pat.toList s.toList

/-- C10: for every caller-supplied comparator that is not the exact object
`np.less`, `TrackerCallback` does not negate `min_delta` at construction and
initialises `best` to -infinity at fit start, because both tests compare the
comparator against `np.less` by identity. -/
theorem C10_custom_comparator :
    ∀ (monitor : String) (c : Comp) (d : ℚ),
      c ≠ Comp.npLess →
        (TrackerCallback.make monitor (some c) d).min_delta = d ∧
        (∀ (names : List String) (st : TrackerState) (idx : Nat),
          (TrackerCallback.make monitor (some c) d).beginFit names = some (st, idx) →
            st.best = EV.ninf) := by
  intro monitor c d hc
  have hb : c.eqNpLess = false := by
    cases c with
    | npLess => exact absurd rfl hc
    | npGreater => rfl
    | custom f => rfl
  constructor
  · simp [TrackerCallback.make, hb]
  · intro names st idx h
    unfold TrackerCallback.beginFit at h
    simp only [TrackerCallback.make, hb] at h
    by_cases hm : monitor ∈ names.drop 1
    · simp only [if_pos hm, Option.some.injEq, Prod.mk.injEq] at h
      obtain ⟨h1, h2⟩ := h
      subst h1
      rfl
    · simp only [if_neg hm] at h
      exact Option.noConfusion h

/-- Witness for C10 with a custom less-than comparator. -/
theorem C10_witness :
    (TrackerCallback.make "valid_loss" (some (Comp.custom EV.lt)) (1/100)).min_delta
        = 1/100 ∧
    (⟨EV.ninf, false⟩ : TrackerState).best = EV.ninf := by
  have h := C10_custom_comparator "valid_loss" (Comp.custom EV.lt) (1/100)
    (fun hx => Comp.noConfusion hx)
  exact ⟨h.1, h.2 ["train_loss", "valid_loss"] ⟨EV.ninf, false⟩ 0 rfl⟩

/-- C3: per epoch of `EarlyStoppingCallback`, an improvement resets the wait
counter to 0; a non-improvement increments it by 1 and the fit is aborted via
`CancelFitException` iff `wait >= patience`, with a message naming epoch
`epoch - wait`; with `patience = 2` and monitored values
`[1.0, 0.9, 0.95, 0.97, 1.0]` the abort is raised at the 4th epoch and no
5th-epoch hook runs. -/
theorem C3_early_stopping :
    (∀ (c : EarlyStoppingCallback) (s : TrackerState) (wait epoch : Nat) (val : EV),
      ((c.tc.afterEpoch s val).new_best = true →
        c.afterEpoch s wait epoch val = (c.tc.afterEpoch s val, 0, none)) ∧
      ((c.tc.afterEpoch s val).new_best = false →
        c.afterEpoch s wait epoch val =
          (c.tc.afterEpoch s val, wait + 1,
            if c.patience ≤ wait + 1
              then some ((epoch : Int) - ((wait + 1 : Nat) : Int)) else none))) ∧
    (EarlyStoppingCallback.make "valid_loss" none 0 2).fit
        ["train_loss", "valid_loss"]
        [EV.fin 1, EV.fin (9/10), EV.fin (95/100), EV.fin (97/100), EV.fin 1] =
      some (4, some 1) := by
  constructor
  · intro c s wait epoch val
    constructor
    · intro h; simp [EarlyStoppingCallback.afterEpoch, h]
    · intro h
      simp only [EarlyStoppingCallback.afterEpoch, h]
      norm_num
      split
      · next hp => rfl
      · next hp => rfl
  · simp only [EarlyStoppingCallback.make, EarlyStoppingCallback.fit,
      TrackerCallback.make, TrackerCallback.beginFit, TrackerCallback.afterEpoch,
      EarlyStoppingCallback.afterEpoch, runES, strContains, hasSubList,
      Comp.eqNpLess, Comp.apply, EV.lt, EV.sub]
    norm_num [EV.lt, EV.sub, Comp.apply, Comp.eqNpLess, TrackerCallback.afterEpoch,
      EarlyStoppingCallback.afterEpoch, runES]

/-- Witness for C3 at concrete inputs, one per branch. -/
theorem C3_witness :
    (EarlyStoppingCallback.make "valid_loss" none 0 2).afterEpoch
        ⟨EV.pinf, false⟩ 0 0 (EV.fin 1) =
      ((EarlyStoppingCallback.make "valid_loss" none 0 2).tc.afterEpoch
        ⟨EV.pinf, false⟩ (EV.fin 1), 0, none) ∧
    (EarlyStoppingCallback.make "valid_loss" none 0 2).afterEpoch
        ⟨EV.fin 1, false⟩ 1 3 EV.pinf =
      ((EarlyStoppingCallback.make "valid_loss" none 0 2).tc.afterEpoch
        ⟨EV.fin 1, false⟩ EV.pinf, 1 + 1,
        if (EarlyStoppingCallback.make "valid_loss" none 0 2).patience ≤ 1 + 1
          then some ((3 : Int) - ((1 + 1 : Nat) : Int)) else none) := by
  refine ⟨(C3_early_stopping.1 _ _ _ _ _).1 ?_, (C3_early_stopping.1 _ _ _ _ _).2 ?_⟩
  · norm_num [EarlyStoppingCallback.make, TrackerCallback.make,
      TrackerCallback.afterEpoch, strContains, hasSubList, Comp.eqNpLess,
      Comp.apply, EV.sub, EV.lt]
  · norm_num [EarlyStoppingCallback.make, TrackerCallback.make,
      TrackerCallback.afterEpoch, strContains, hasSubList, Comp.eqNpLess,
      Comp.apply, EV.sub, EV.lt]

/-- C4: per epoch of `SaveModelCallback`, in `every_epoch` mode the model is
saved under `fname` suffixed with the epoch index and the tracker state is
never consulted or updated; in best-only mode the model is saved under the
bare `fname` exactly when the epoch set a new best, so for values
`[0.5, 0.4, 0.6, 0.3]` it persists at epochs 1, 2 and 4 (1-indexed) and skips
epoch 3, and the end-of-fit reload loads that checkpoint. -/
theorem C4_save_model :
    (∀ (c : SaveModelCallback) (s : TrackerState) (epoch : Nat) (val : EV),
      c.every_epoch = true →
        c.afterEpoch s epoch val = (s, some (c.fname ++ "_" ++ toString epoch))) ∧
    (∀ (c : SaveModelCallback) (s : TrackerState) (epoch : Nat) (val : EV),
      c.every_epoch = false →
        c.afterEpoch s epoch val =
          (c.tc.afterEpoch s val,
            if (c.tc.afterEpoch s val).new_best = true then some c.fname else none)) ∧
    (SaveModelCallback.make "valid_loss" none 0 "model" false).fit
        ["train_loss", "valid_loss"]
        [EV.fin (1/2), EV.fin (2/5), EV.fin (3/5), EV.fin (3/10)] [] =
      some ([(0, "model"), (1, "model"), (3, "model")], some "model") := by
  refine ⟨fun c s epoch val h => ?_, fun c s epoch val h => ?_, ?_⟩
  · simp [SaveModelCallback.afterEpoch, h]
  · simp [SaveModelCallback.afterEpoch, h]
  · simp only [SaveModelCallback.make, SaveModelCallback.fit,
      TrackerCallback.make, TrackerCallback.beginFit, TrackerCallback.afterEpoch,
      SaveModelCallback.afterEpoch, SaveModelCallback.onTrainEnd, runSave,
      strContains, hasSubList, Comp.eqNpLess, Comp.apply, EV.lt, EV.sub]
    norm_num [EV.lt, EV.sub, Comp.apply, Comp.eqNpLess, TrackerCallback.afterEpoch,
      SaveModelCallback.afterEpoch, SaveModelCallback.onTrainEnd, runSave]

/-- Witness for C4 at concrete inputs, one per mode. -/
theorem C4_witness :
    (SaveModelCallback.make "valid_loss" none 0 "model" true).afterEpoch
        ⟨EV.pinf, false⟩ 3 (EV.fin 1) =
      (⟨EV.pinf, false⟩, some ("model" ++ "_" ++ toString 3)) ∧
    (SaveModelCallback.make "valid_loss" none 0 "model" false).afterEpoch
        ⟨EV.pinf, false⟩ 0 (EV.fin 1) =
      ((SaveModelCallback.make "valid_loss" none 0 "model" false).tc.afterEpoch
          ⟨EV.pinf, false⟩ (EV.fin 1),
        if ((SaveModelCallback.make "valid_loss" none 0 "model" false).tc.afterEpoch
            ⟨EV.pinf, false⟩ (EV.fin 1)).new_best = true
          then some (SaveModelCallback.make "valid_loss" none 0 "model" false).fname
          else none) := by
  exact ⟨C4_save_model.1 _ _ _ _ rfl, C4_save_model.2.1 _ _ _ _ rfl⟩

/-- C5: at fit end, `SaveModelCallback` in best-only mode reloads the
checkpoint saved under the bare `fname` whenever such a file exists, skips
silently when it does not, and in `every_epoch` mode never reloads. -/
theorem C5_reload_best :
    (∀ (c : SaveModelCallback) (fs : List String),
      c.every_epoch = true → c.onTrainEnd fs = none) ∧
    (∀ (c : SaveModelCallback) (fs : List String),
      c.every_epoch = false →
        (c.onTrainEnd fs = some c.fname ↔ (c.fname ++ ".pth") ∈ fs)) ∧
    (∀ (c : SaveModelCallback) (fs : List String),
      c.onTrainEnd fs = none ∨ c.onTrainEnd fs = some c.fname) ∧
    (SaveModelCallback.make "valid_loss" none 0 "model" true).fit
        ["train_loss", "valid_loss"] [EV.fin 1] [] =
      some ([(0, "model" ++ "_" ++ toString 0)], none) ∧
    (SaveModelCallback.make "valid_loss" none 0 "model" false).fit
        ["train_loss", "valid_loss"] [EV.pinf] [] =
      some ([], none) := by
  refine ⟨fun c fs h => ?_, fun c fs h => ?_, fun c fs => ?_, ?_, ?_⟩
  · simp [SaveModelCallback.onTrainEnd, h]
  · simp [SaveModelCallback.onTrainEnd, h]
  · unfold SaveModelCallback.onTrainEnd
    split
    · right; rfl
    · left; rfl
  · rfl
  · simp only [SaveModelCallback.make, SaveModelCallback.fit,
      TrackerCallback.make, TrackerCallback.beginFit, TrackerCallback.afterEpoch,
      SaveModelCallback.afterEpoch, SaveModelCallback.onTrainEnd, runSave,
      strContains, hasSubList, Comp.eqNpLess, Comp.apply, EV.lt, EV.sub]
    norm_num [EV.lt, EV.sub, Comp.apply, Comp.eqNpLess, TrackerCallback.afterEpoch,
      SaveModelCallback.afterEpoch, SaveModelCallback.onTrainEnd, runSave]

/-- Witness for C5 at concrete inputs. -/
theorem C5_witness :
    (SaveModelCallback.make "valid_loss" none 0 "model" true).onTrainEnd
        ["model_0.pth"] = none ∧
    ((SaveModelCallback.make "valid_loss" none 0 "model" false).onTrainEnd
        ["model" ++ ".pth"] =
        some (SaveModelCallback.make "valid_loss" none 0 "model" false).fname ↔
      ("model" ++ ".pth") ∈ ["model" ++ ".pth"]) := by
  exact ⟨C5_reload_best.1 _ _ rfl, C5_reload_best.2.1 _ _ rfl⟩

/-- C6: on every epoch of `ReduceLROnPlateau` on which the patience counter
triggers, the learning rate of every optimizer hyper-parameter group is
divided by `factor` and the wait counter is reset to 0; no abort is ever
raised (every epoch hook always runs); with `patience = 1`, `factor = 10`,
initial lr `0.1` and values `[1.0, 1.0]`, every group's lr is `0.01` after
epoch 2 and the fit continues. -/
theorem C6_reduce_lr :
    (∀ (c : ReduceLROnPlateau) (s : TrackerState) (wait : Nat) (hypers : List ℚ)
      (val : EV),
      (c.tc.afterEpoch s val).new_best = false → c.patience ≤ wait + 1 →
        c.afterEpoch s wait hypers val =
          (c.tc.afterEpoch s val, 0, hypers.map (fun lr => lr / c.factor))) ∧
    (∀ (c : ReduceLROnPlateau) (values : List EV) (epoch : Nat) (s : TrackerState)
      (wait : Nat) (hypers : List ℚ),
      (runPlateau c values epoch s wait hypers).1 = values.length) ∧
    runPlateau (ReduceLROnPlateau.make "valid_loss" none 0 1 10)
        [EV.fin 1, EV.fin 1] 0 ⟨EV.pinf, false⟩ 0 [1/10] =
      (2, ⟨EV.fin 1, false⟩, 0, [1/100]) := by
  refine ⟨fun c s wait hypers val h hp => ?_, fun c values => ?_, ?_⟩
  · simp [ReduceLROnPlateau.afterEpoch, h, hp]
  · induction values with
    | nil => intro epoch s wait hypers; rfl
    | cons v vs ih => intro epoch s wait hypers; simp [runPlateau, ih]
  · simp only [ReduceLROnPlateau.make, TrackerCallback.make,
      TrackerCallback.afterEpoch, ReduceLROnPlateau.afterEpoch, runPlateau,
      strContains, hasSubList, Comp.eqNpLess, Comp.apply, EV.lt, EV.sub]
    norm_num [EV.lt, EV.sub, Comp.apply, Comp.eqNpLess, TrackerCallback.afterEpoch,
      ReduceLROnPlateau.afterEpoch, runPlateau]

/-- Witness for C6 at a concrete trigger with two hyper-parameter groups. -/
theorem C6_witness :
    (ReduceLROnPlateau.make "valid_loss" none 0 1 10).afterEpoch
        ⟨EV.fin 1, false⟩ 0 [1, 2] EV.pinf =
      ((ReduceLROnPlateau.make "valid_loss" none 0 1 10).tc.afterEpoch
          ⟨EV.fin 1, false⟩ EV.pinf, 0,
        [1, 2].map (fun lr =>
          lr / (ReduceLROnPlateau.make "valid_loss" none 0 1 10).factor)) := by
  refine C6_reduce_lr.1 _ _ _ _ _ ?_ ?_
  · norm_num [ReduceLROnPlateau.make, TrackerCallback.make,
      TrackerCallback.afterEpoch, strContains, hasSubList, Comp.eqNpLess,
      Comp.apply, EV.sub, EV.lt]
  · norm_num [ReduceLROnPlateau.make]

/-- C7: after every training batch, `TerminateOnNaNCallback` raises
`CancelFitException` iff the batch loss is infinite or NaN; for batch losses
`[1.0, 2.0, NaN, 3.0]` the abort occurs exactly at the NaN and no subsequent
batch hook executes. -/
theorem C7_terminate_on_nan :
    (∀ (loss : EV),
      TerminateOnNaNCallback.afterBatch loss = (loss.isinf || loss.isnan)) ∧
    runNaN [EV.fin 1, EV.fin 2, EV.nan, EV.fin 3] = (3, true) := by
  exact ⟨fun loss => rfl, by decide⟩

/-- C8: if the configured monitor name is absent from the recorder's metric
names after the fixed training-loss column, the fit fails once at fit start in
`begin_fit`, before any epoch runs; when the name is present the whole fit
runs with no such error at any epoch. -/
theorem C8_monitor_assert :
    (∀ (t : TrackerCallback) (names : List String),
      t.beginFit names = none ↔ t.monitor ∉ names.drop 1) ∧
    (∀ (c : EarlyStoppingCallback) (names : List String) (values : List EV),
      c.tc.monitor ∉ names.drop 1 → c.fit names values = none) ∧
    (∀ (c : EarlyStoppingCallback) (names : List String) (values : List EV),
      c.tc.monitor ∈ names.drop 1 → (c.fit names values).isSome = true) := by
  have hb : ∀ (t : TrackerCallback) (names : List String),
      t.beginFit names = none ↔ t.monitor ∉ names.drop 1 := by
    intro t names
    unfold TrackerCallback.beginFit
    by_cases hm : t.monitor ∈ names.drop 1
    · simp [if_pos hm, hm]
    · simp [if_neg hm, hm]
  refine ⟨hb, fun c names values h => ?_, fun c names values h => ?_⟩
  · have := (hb c.tc names).mpr h
    simp [EarlyStoppingCallback.fit, this]
  · unfold EarlyStoppingCallback.fit
    unfold TrackerCallback.beginFit
    rw [if_pos h]
    rfl

/-- Witness for C8 at concrete inputs. -/
theorem C8_witness :
    (EarlyStoppingCallback.make "valid_loss" none 0 1).fit
        ["train_loss"] [EV.fin 1] = none ∧
    ((EarlyStoppingCallback.make "valid_loss" none 0 1).fit
        ["train_loss", "valid_loss"] []).isSome = true := by
  refine ⟨C8_monitor_assert.2.1 _ _ _ ?_, C8_monitor_assert.2.2 _ _ _ ?_⟩
  · simp [EarlyStoppingCallback.make, TrackerCallback.make, strContains,
      hasSubList, Comp.eqNpLess]
  · simp [EarlyStoppingCallback.make, TrackerCallback.make, strContains,
      hasSubList, Comp.eqNpLess]
